import Mathlib

/-!
Verification of the crosshatch pixelstats sysfs collector
(src/pixelstats/SysfsCollector.cpp).

The collector is embedded shallowly as a trace semantics: a cycle runs over a
read-only snapshot of the sysfs filesystem (a map from path to optional file
contents, where none means the file is unreadable) and emits a list of
observable events: file reads, file writes (the clear-on-read resets), the
report calls made on the IPixelStats sink, and the release of the sink handle.
C float values are modelled as exact rationals; the inputs appearing in the
statements below are exactly representable and the scale factor 1000 is exact
on them.  Logging (ALOGE) is not modelled: the code only logs and continues.
-/

/-- The four slow-I/O operation kinds of IPixelStats.IoOperation used by the
collector. -/
inductive IoOperation
  | READ
  | WRITE
  | UNMAP
  | SYNC
deriving DecidableEq, Repr

/-- Hardware component tags of IPixelStats.HardwareType; the collector only
ever uses CODEC. -/
inductive HardwareType
  | CODEC
deriving DecidableEq, Repr

/-- Hardware error codes of IPixelStats.HardwareErrorCode; the collector only
ever uses COMPLETE. -/
inductive HardwareErrorCode
  | COMPLETE
deriving DecidableEq, Repr

/-- Observable events of one collection cycle: filesystem accesses, report
calls on the sink, and the release of the sink handle. -/
inductive Event
  | readFile (path : String)
  | writeFile (path : String) (contents : String)
  | reportChargeCycles (s : String)
  | reportHardwareFailed (hw : HardwareType) (idx : Int) (code : HardwareErrorCode)
  | reportSlowIo (op : IoOperation) (count : Int)
  | reportSpeakerImpedance (ch : Nat) (val : Rat)
  | releaseSink
deriving DecidableEq, Repr

/-- A snapshot of the sysfs filesystem: none means the file cannot be read
(ReadFileToString fails). -/
abbrev FileSys := String → Option String

def kSlowioReadCntPath : String := "/sys/devices/platform/soc/1d84000.ufshc/slowio_read_cnt"

def kSlowioWriteCntPath : String := "/sys/devices/platform/soc/1d84000.ufshc/slowio_write_cnt"

def kSlowioUnmapCntPath : String := "/sys/devices/platform/soc/1d84000.ufshc/slowio_unmap_cnt"

def kSlowioSyncCntPath : String := "/sys/devices/platform/soc/1d84000.ufshc/slowio_sync_cnt"

def kCycleCountBinsPath : String := "/sys/class/power_supply/maxfg/cycle_counts_bins"

def kImpedancePath : String := "/sys/class/misc/msm_cirrus_playback/resistance_left_right"

def kCodecPath : String := "/sys/devices/platform/soc/171c0000.slim/tavil-slim-pgd/tavil_codec/codec_state"

/-- The six characters the C locale isspace accepts; used by sscanf whitespace
skipping and by android base Trim. -/
def isSpaceByte (c : Char) : Bool :=
  c = ' ' || c = '\t' || c = '\n' || c = '\x0b' || c = '\x0c' || c = '\r'

/-- Value of a list of decimal digit characters, most significant first. -/
def digitsToNat (ds : List Char) : Nat :=
  ds.foldl (fun a c => a * 10 + (c.toNat - 48)) 0

/-- Model of sscanf with format percent-d on a NUL-terminated string: skip
isspace characters, an optional sign, then a maximal nonempty run of decimal
digits; none when no digit is matched (sscanf returns 0 conversions).  The
value is unbounded here; the inputs of interest fit in int32_t. -/
def scanDecInt (s : List Char) : Option Int :=
  let t := s.dropWhile isSpaceByte
  match t with
  | '-' :: rest =>
      let ds := rest.takeWhile Char.isDigit
      if ds.isEmpty then none else some (-(digitsToNat ds : Int))
  | '+' :: rest =>
      let ds := rest.takeWhile Char.isDigit
      if ds.isEmpty then none else some ((digitsToNat ds : Int))
  | _ =>
      let ds := t.takeWhile Char.isDigit
      if ds.isEmpty then none else some ((digitsToNat ds : Int))

/-- Optional exponent part of a scanf percent-g conversion: e or E, optional
sign, then digits; when no digit follows, nothing is consumed (the number ends
before the e, as in strtof). -/
def scanExpPart (s : List Char) : Int × List Char :=
  match s with
  | c :: rest =>
      if c = 'e' || c = 'E' then
        match rest with
        | '-' :: r2 =>
            let ds := r2.takeWhile Char.isDigit
            if ds.isEmpty then (0, c :: rest)
            else (-(digitsToNat ds : Int), r2.dropWhile Char.isDigit)
        | '+' :: r2 =>
            let ds := r2.takeWhile Char.isDigit
            if ds.isEmpty then (0, c :: rest)
            else ((digitsToNat ds : Int), r2.dropWhile Char.isDigit)
        | r2 =>
            let ds := r2.takeWhile Char.isDigit
            if ds.isEmpty then (0, c :: rest)
            else ((digitsToNat ds : Int), r2.dropWhile Char.isDigit)
      else (0, c :: rest)
  | [] => (0, [])

/-- The exact rational value of a decimal float with sign neg, mantissa digits
worth m with fracLen of them after the decimal point, and decimal exponent e:
the value sign * m * 10 ^ (e - fracLen), built with a single mkRat over
integer arithmetic. -/
def ratOfScan (neg : Bool) (m : Nat) (fracLen : Nat) (e : Int) : Rat :=
  let sm : Int := if neg then -(m : Int) else (m : Int)
  if 0 ≤ e then mkRat (sm * (10 : Int) ^ e.toNat) ((10 : Nat) ^ fracLen)
  else mkRat sm ((10 : Nat) ^ (fracLen + (-e).toNat))

/-- Model of one scanf percent-g conversion with the value taken exactly as a
rational: skip isspace characters, optional sign, digits with an optional
decimal point and fractional digits (at least one digit in total), optional
exponent.  Returns the value and the unconsumed suffix, or none on a matching
failure. -/
def scanFloat (s : List Char) : Option (Rat × List Char) :=
  let t := s.dropWhile isSpaceByte
  let signed : Bool × List Char :=
    match t with
    | '-' :: rest => (true, rest)
    | '+' :: rest => (false, rest)
    | _ => (false, t)
  let neg := signed.1
  let t1 := signed.2
  let intDs := t1.takeWhile Char.isDigit
  let t2 := t1.dropWhile Char.isDigit
  let fracPart : List Char × List Char :=
    match t2 with
    | '.' :: rest => (rest.takeWhile Char.isDigit, rest.dropWhile Char.isDigit)
    | _ => ([], t2)
  let fracDs := fracPart.1
  let t3 := fracPart.2
  if intDs.isEmpty && fracDs.isEmpty then none
  else
    let ep := scanExpPart t3
    some (ratOfScan neg (digitsToNat (intDs ++ fracDs)) fracDs.length ep.1, ep.2)

/-- Model of sscanf with format percent-g comma percent-g: a float, then a
literal comma (matched exactly, with no whitespace skipping before it), then a
second float; none unless both conversions succeed (sscanf returns 2). -/
def scanImpedancePair (s : String) : Option (Rat × Rat) :=
  match scanFloat s.data with
  | none => none
  | some (l, rest) =>
      match rest with
      | ',' :: r2 =>
          match scanFloat r2 with
          | none => none
          | some (r, _) => some (l, r)
      | _ => none

/-- Model of std replace over the whole string with old value space and new
value comma: every space character is replaced, one for one. -/
def replaceSpaceWithComma (s : String) : String :=
  String.mk (s.data.map fun c => if c = ' ' then ',' else c)

/-- Model of android base Trim: remove leading and trailing isspace
characters. -/
def trimWs (s : String) : String :=
  String.mk (((s.data.dropWhile isSpaceByte).reverse.dropWhile isSpaceByte).reverse)

/-- SysfsCollector logBatteryChargeCycles: read kCycleCountBinsPath; on
failure just return; otherwise replace spaces by commas, Trim, and report the
result as charge cycles. -/
def logBatteryChargeCycles (fs : FileSys) : List Event :=
  Event.readFile kCycleCountBinsPath ::
    match fs kCycleCountBinsPath with
    | none => []
    | some file_contents =>
        [Event.reportChargeCycles (trimWs (replaceSpaceWithComma file_contents))]

/-- SysfsCollector logCodecFailed: read kCodecPath; on failure just return;
if the contents equal the string 0 exactly, no report; otherwise report a
hardware failure with tag CODEC, sub-index 0, error code COMPLETE. -/
def logCodecFailed (fs : FileSys) : List Event :=
  Event.readFile kCodecPath ::
    match fs kCodecPath with
    | none => []
    | some file_contents =>
        if file_contents = "0" then []
        else [Event.reportHardwareFailed HardwareType.CODEC 0 HardwareErrorCode.COMPLETE]

/-- SysfsCollector reportSlowIoFromFile: read the given path; on failure just
return; otherwise sscanf the contents as an int; on parse success with a
positive value report it tagged with the operation; in every successfully read
case (parse failure included) write the string 0 back to the path. -/
def reportSlowIoFromFile (path : String) (operation : IoOperation) (fs : FileSys) : List Event :=
  Event.readFile path ::
    match fs path with
    | none => []
    | some file_contents =>
        (match scanDecInt file_contents.data with
         | none => []
         | some slow_io_count =>
             if slow_io_count > 0 then [Event.reportSlowIo operation slow_io_count] else []) ++
          [Event.writeFile path "0"]

/-- SysfsCollector logSlowIO: the four slow-I/O counters in the order read,
write, unmap, sync. -/
def logSlowIo (fs : FileSys) : List Event :=
  reportSlowIoFromFile kSlowioReadCntPath IoOperation.READ fs ++
    reportSlowIoFromFile kSlowioWriteCntPath IoOperation.WRITE fs ++
      reportSlowIoFromFile kSlowioUnmapCntPath IoOperation.UNMAP fs ++
        reportSlowIoFromFile kSlowioSyncCntPath IoOperation.SYNC fs

/-- SysfsCollector logSpeakerImpedance: read kImpedancePath; on failure just
return; parse two comma-separated floats; on failure of either conversion just
return; otherwise report channel 0 and channel 1, each value multiplied by
1000. -/
def logSpeakerImpedance (fs : FileSys) : List Event :=
  Event.readFile kImpedancePath ::
    match fs kImpedancePath with
    | none => []
    | some file_contents =>
        match scanImpedancePair file_contents with
        | none => []
        | some (left, right) =>
            [Event.reportSpeakerImpedance 0 (left * 1000),
             Event.reportSpeakerImpedance 1 (right * 1000)]

/-- SysfsCollector logAll: sinkOk models whether IPixelStats tryGetService
returned a service.  On failure the cycle does nothing; on success the sources
run in the fixed source order and the handle is dropped at the end. -/
def logAll (sinkOk : Bool) (fs : FileSys) : List Event :=
  if sinkOk then
    logBatteryChargeCycles fs ++
      logCodecFailed fs ++
        logSlowIo fs ++
          logSpeakerImpedance fs ++ [Event.releaseSink]
  else []

/-- The fixed table of statistic sources in the order logAll runs them: each
entry is the path the source reads and its reader.  The four slow-I/O counters
are four independent sources. -/
def sourceTable : List (String × (FileSys → List Event)) :=
  [(kCycleCountBinsPath, logBatteryChargeCycles),
   (kCodecPath, logCodecFailed),
   (kSlowioReadCntPath, reportSlowIoFromFile kSlowioReadCntPath IoOperation.READ),
   (kSlowioWriteCntPath, reportSlowIoFromFile kSlowioWriteCntPath IoOperation.WRITE),
   (kSlowioUnmapCntPath, reportSlowIoFromFile kSlowioUnmapCntPath IoOperation.UNMAP),
   (kSlowioSyncCntPath, reportSlowIoFromFile kSlowioSyncCntPath IoOperation.SYNC),
   (kImpedancePath, logSpeakerImpedance)]

/-- Outcome of one read on the timerfd in SysfsCollector collect: interrupted
by a signal with errno EINTR, failed with some other error, or a delivered
tick. -/
inductive ReadOutcome
  | eintr
  | err
  | tick
deriving DecidableEq, Repr

/-- Number of timer ticks the collect loop consumes from a finite prefix of
timerfd read outcomes: eintr outcomes are retried transparently, the first
non-eintr error terminates the loop, and each tick runs one cycle.  When the
prefix is exhausted the loop is blocked in read waiting for the next tick. -/
def ticksBeforeErr : List ReadOutcome → Nat
  | [] => 0
  | ReadOutcome.eintr :: rest => ticksBeforeErr rest
  | ReadOutcome.err :: _ => 0
  | ReadOutcome.tick :: rest => ticksBeforeErr rest + 1

/-- Number of logAll cycles SysfsCollector collect runs, given whether
timerfd_create succeeds, whether timerfd_settime succeeds, and a finite prefix
of timerfd read outcomes.  Creation failure returns before the boot cycle;
the boot cycle runs before timerfd_settime, so an arming failure returns after
exactly one cycle; afterwards each delivered tick runs one cycle. -/
def collectCycles (createOk settimeOk : Bool) (reads : List ReadOutcome) : Nat :=
  if createOk then
    if settimeOk then 1 + ticksBeforeErr reads
    else 1
  else 0

/-- The cycle traces collect produces: cycle n runs logAll against the sink
availability and filesystem snapshot current at that cycle (env n).  The loop
ignores the outcome of logAll, so the number of cycles is independent of env. -/
def collectTrace (createOk settimeOk : Bool) (reads : List ReadOutcome)
    (env : Nat → Bool × FileSys) : List (List Event) :=
  (List.range (collectCycles createOk settimeOk reads)).map
    (fun n => logAll (env n).1 (env n).2)

/-- Joins a list of tokens with single spaces; builds test inputs for the
charge-cycle histogram. -/
def joinSpaces : List String → String
  | [] => ""
  | [p] => p
  | p :: rest => p ++ " " ++ joinSpaces rest

/-- Joins a list of tokens with single commas; the expected normalized
charge-cycle output. -/
def joinCommas : List String → String
  | [] => ""
  | [p] => p
  | p :: rest => p ++ "," ++ joinCommas rest

/-- A filesystem snapshot on which every file is unreadable. -/
def fsA : FileSys := fun _ => none

/-- A filesystem snapshot on which only the charge-cycle bins file is
readable. -/
def fsB : FileSys := fun q => if q = kCycleCountBinsPath then some "1 2 3" else none

/-- Replacing spaces by commas leaves a list of characters without isspace
characters unchanged. -/
theorem map_comma_noop (l : List Char) (h : ∀ c ∈ l, isSpaceByte c = false) :
    l.map (fun c => if c = ' ' then ',' else c) = l := by
  induction l with
  | nil => rfl
  | cons c cs ih =>
      have hc : isSpaceByte c = false := h c (by simp)
      have hc2 : c ≠ ' ' := by intro e; subst e; simp [isSpaceByte] at hc
      simp only [List.map_cons, if_neg hc2, ih (fun d hd => h d (by simp [hd]))]

/-- The space-to-comma replacement distributes over string append. -/
theorem replaceSpaceWithComma_append (a b : String) :
    replaceSpaceWithComma (a ++ b) = replaceSpaceWithComma a ++ replaceSpaceWithComma b := by
  unfold replaceSpaceWithComma
  apply congrArg String.mk
  simp [String.data_append]

/-- The space-to-comma replacement leaves a string without isspace characters
unchanged. -/
theorem replaceSpaceWithComma_noop (p : String) (h : ∀ c ∈ p.data, isSpaceByte c = false) :
    replaceSpaceWithComma p = p := by
  cases p with
  | mk l => exact congrArg String.mk (map_comma_noop l h)

/-- On tokens free of isspace characters, the space-to-comma replacement turns
a space-joined list into the comma-joined list. -/
theorem replace_join (parts : List String)
    (h : ∀ p ∈ parts, ∀ c ∈ p.data, isSpaceByte c = false) :
    replaceSpaceWithComma (joinSpaces parts) = joinCommas parts := by
  induction parts with
  | nil => rfl
  | cons p rest ih =>
      cases rest with
      | nil =>
          simp only [joinSpaces, joinCommas]
          exact replaceSpaceWithComma_noop p (h p (by simp))
      | cons q rest2 =>
          have hq : ∀ r ∈ q :: rest2, ∀ c ∈ r.data, isSpaceByte c = false := by
            intro r hr; exact h r (by simp [hr])
          show replaceSpaceWithComma (p ++ " " ++ joinSpaces (q :: rest2)) =
            p ++ "," ++ joinCommas (q :: rest2)
          rw [replaceSpaceWithComma_append, replaceSpaceWithComma_append,
            replaceSpaceWithComma_noop p (h p (by simp)), ih hq]
          rfl

/-- dropWhile of the isspace predicate is the identity on a list without
isspace characters. -/
theorem dropWhile_no_space (l : List Char) (h : ∀ c ∈ l, isSpaceByte c = false) :
    l.dropWhile isSpaceByte = l := by
  cases l with
  | nil => rfl
  | cons c cs => exact List.dropWhile_cons_of_neg (by simp [h c (by simp)])

/-- Trim is the identity on a string without isspace characters. -/
theorem trimWs_noop (s : String) (h : ∀ c ∈ s.data, isSpaceByte c = false) :
    trimWs s = s := by
  unfold trimWs
  rw [dropWhile_no_space _ h,
    dropWhile_no_space _ (fun c hc => h c (List.mem_reverse.mp hc)),
    List.reverse_reverse]

/-- A comma-joined list of tokens free of isspace characters has no isspace
characters. -/
theorem joinCommas_no_space (parts : List String)
    (h : ∀ p ∈ parts, ∀ c ∈ p.data, isSpaceByte c = false) :
    ∀ c ∈ (joinCommas parts).data, isSpaceByte c = false := by
  induction parts with
  | nil => intro c hc; simp [joinCommas] at hc
  | cons p rest ih =>
      cases rest with
      | nil => intro c hc; exact h p (by simp) c hc
      | cons q rest2 =>
          intro c hc
          have hdata : (joinCommas (p :: q :: rest2)).data =
              (p.data ++ [',']) ++ (joinCommas (q :: rest2)).data := by
            show (p ++ "," ++ joinCommas (q :: rest2)).data = _
            simp [String.data_append]
          rw [hdata] at hc
          rcases List.mem_append.mp hc with h12 | h3
          · rcases List.mem_append.mp h12 with h1 | h2
            · exact h p (by simp) c h1
            · rw [List.mem_singleton.mp h2]; decide
          · exact ih (fun r hr => h r (by simp [hr])) c h3

/-- Trim removes a trailing newline from a string that is otherwise free of
isspace characters. -/
theorem trimWs_newline (s : String) (h : ∀ c ∈ s.data, isSpaceByte c = false) :
    trimWs (s ++ "\n") = s := by
  unfold trimWs
  cases s with
  | mk l =>
      cases l with
      | nil => rfl
      | cons c cs =>
          have hdata : ((String.mk (c :: cs)) ++ "\n").data = c :: (cs ++ ['\n']) := by
            simp [String.data_append]
          rw [hdata, List.dropWhile_cons_of_neg (by simp [h c (by simp)])]
          have hrev : (c :: (cs ++ ['\n'])).reverse = '\n' :: (cs.reverse ++ [c]) := by
            simp
          rw [hrev, List.dropWhile_cons_of_pos (by decide),
            dropWhile_no_space (cs.reverse ++ [c]) ?hmem]
          · simp
          case hmem =>
            intro d hd
            rcases List.mem_append.mp hd with h1 | h2
            · exact h d (by simp [List.mem_reverse.mp h1])
            · rw [List.mem_singleton.mp h2]; exact h c (by simp)

/-- Dropping eintr outcomes from the timerfd read sequence does not change the
number of ticks consumed before the first hard error. -/
theorem ticksBeforeErr_filter_eintr (reads : List ReadOutcome) :
    ticksBeforeErr (reads.filter fun r =>
      match r with
      | ReadOutcome.eintr => false
      | _ => true) = ticksBeforeErr reads := by
  induction reads with
  | nil => rfl
  | cons r rest ih => cases r <;> simp [ticksBeforeErr, List.filter_cons, ih]

/-- Each entry of the source table reads only its own path: its events depend
on the filesystem only through the contents of that path. -/
theorem sourceTable_local (k : Fin sourceTable.length) (fs fs' : FileSys)
    (h : fs (sourceTable.get k).1 = fs' (sourceTable.get k).1) :
    (sourceTable.get k).2 fs = (sourceTable.get k).2 fs' := by
  fin_cases k <;>
    simp only [sourceTable, List.get, logBatteryChargeCycles, logCodecFailed,
      reportSlowIoFromFile, logSpeakerImpedance] at h ⊢ <;>
    rw [h]

/-- Claim C1 counterexample: on the non-numeric input abc, the slow-I/O reader
makes zero report calls but the reset write of 0 to the counter file still
occurs, contrary to the claim that no reset write is performed. -/
theorem claim_C1_counterexample :
    reportSlowIoFromFile kSlowioReadCntPath IoOperation.READ (fun _ => some "abc") =
      [Event.readFile kSlowioReadCntPath, Event.writeFile kSlowioReadCntPath "0"] ∧
    Event.writeFile kSlowioReadCntPath "0" ∈
      reportSlowIoFromFile kSlowioReadCntPath IoOperation.READ (fun _ => some "abc") := by
  decide

/-- Claim C1 (amended): for any slow-I/O counter source, after a successful
read, input 0 produces zero report calls and the reset write of 0 still
occurs; input 5 produces exactly one slow-I/O report with count 5 tagged with
the operation kind of the source, followed by the reset write; non-numeric
input such as abc produces zero report calls and the reset write still occurs
(the counter file is overwritten with 0 after every successful read,
regardless of whether parsing succeeded). -/
theorem claim_C1 (path : String) (op : IoOperation) :
    reportSlowIoFromFile path op (fun _ => some "0") =
      [Event.readFile path, Event.writeFile path "0"] ∧
    reportSlowIoFromFile path op (fun _ => some "5") =
      [Event.readFile path, Event.reportSlowIo op 5, Event.writeFile path "0"] ∧
    reportSlowIoFromFile path op (fun _ => some "abc") =
      [Event.readFile path, Event.writeFile path "0"] :=
  ⟨rfl, rfl, rfl⟩

/-- Claim C2 counterexample: input with a trailing space is reported with a
trailing comma, because the space-to-comma replacement runs before Trim and
Trim removes only whitespace; the claimed output is not produced. -/
theorem claim_C2_counterexample :
    logBatteryChargeCycles (fun _ => some "1 2 3 ") =
      [Event.readFile kCycleCountBinsPath, Event.reportChargeCycles "1,2,3,"] ∧
    Event.reportChargeCycles "1,2,3" ∉ logBatteryChargeCycles (fun _ => some "1 2 3 ") := by
  decide

/-- Claim C2 (amended): the forwarded string replaces each single space
character with a comma (a run of spaces yields a run of commas) and is then
trimmed of leading and trailing whitespace only; for tokens free of
whitespace, single-space-separated input, with or without a trailing newline,
is reported comma-separated, while the input 1 2 3 with a trailing space is
reported as 1,2,3, with a trailing comma. -/
theorem claim_C2 :
    (∀ parts : List String,
        (∀ p ∈ parts, ∀ c ∈ p.data, isSpaceByte c = false) →
        logBatteryChargeCycles (fun _ => some (joinSpaces parts)) =
          [Event.readFile kCycleCountBinsPath,
           Event.reportChargeCycles (joinCommas parts)]) ∧
    (∀ parts : List String,
        (∀ p ∈ parts, ∀ c ∈ p.data, isSpaceByte c = false) →
        logBatteryChargeCycles (fun _ => some (joinSpaces parts ++ "\n")) =
          [Event.readFile kCycleCountBinsPath,
           Event.reportChargeCycles (joinCommas parts)]) ∧
    logBatteryChargeCycles (fun _ => some "1 2 3 ") =
      [Event.readFile kCycleCountBinsPath, Event.reportChargeCycles "1,2,3,"] := by
  refine ⟨?_, ?_, by decide⟩
  · intro parts h
    simp only [logBatteryChargeCycles]
    rw [replace_join parts h, trimWs_noop _ (joinCommas_no_space parts h)]
  · intro parts h
    simp only [logBatteryChargeCycles]
    rw [replaceSpaceWithComma_append, replace_join parts h]
    have : replaceSpaceWithComma "\n" = "\n" := rfl
    rw [this, trimWs_newline _ (joinCommas_no_space parts h)]

/-- Claim C2 witness: the universal part of claim C2 applied to the token list
1, 2, 3. -/
theorem claim_C2_witness :
    logBatteryChargeCycles (fun _ => some (joinSpaces ["1", "2", "3"])) =
      [Event.readFile kCycleCountBinsPath,
       Event.reportChargeCycles (joinCommas ["1", "2", "3"])] :=
  claim_C2.1 ["1", "2", "3"] (by decide)

/-- Claim C3: when the sink handle cannot be acquired the cycle emits no
events at all — no report calls, no file reads, no reset writes — and the
failure does not change how many cycles the collection loop runs: the loop
continues to the next scheduled tick regardless of the per-cycle sink
availability and filesystem contents. -/
theorem claim_C3 :
    (∀ fs : FileSys, logAll false fs = []) ∧
    (∀ (c s : Bool) (reads : List ReadOutcome) (env env' : Nat → Bool × FileSys),
      (collectTrace c s reads env).length = (collectTrace c s reads env').length) := by
  constructor
  · intro fs; rfl
  · intro c s reads env env'; simp [collectTrace]

/-- Claim C4: after a successful read of the codec state file, content exactly
equal to 0 yields zero report calls, and any other content yields exactly one
hardware-failure report with component tag CODEC, sub-index 0, and error code
COMPLETE. -/
theorem claim_C4 (fs : FileSys) (s : String) (h : fs kCodecPath = some s) :
    logCodecFailed fs =
      Event.readFile kCodecPath ::
        (if s = "0" then []
         else [Event.reportHardwareFailed HardwareType.CODEC 0 HardwareErrorCode.COMPLETE]) := by
  simp only [logCodecFailed, h]

/-- Claim C4 witness: claim C4 applied to a snapshot with codec state 3. -/
theorem claim_C4_witness :
    logCodecFailed (fun _ => some "3") =
      [Event.readFile kCodecPath,
       Event.reportHardwareFailed HardwareType.CODEC 0 HardwareErrorCode.COMPLETE] := by
  have h := claim_C4 (fun _ => some "3") "3" rfl
  rw [if_neg (by decide)] at h
  exact h

/-- Claim C5 counterexample: the space-separated input 4.5 5.25 is not parsed
— the scanf format requires a literal comma between the two values — so zero
report calls are made, contrary to the claim that comma-or-space-separated
values are parsed. -/
theorem claim_C5_counterexample :
    logSpeakerImpedance (fun _ => some "4.5 5.25") = [Event.readFile kImpedancePath] := by
  decide

/-- Claim C5 (amended): two comma-separated floating values are parsed (the
comma is matched literally; space-only separation fails); input 4.5,5.25
yields exactly two report calls, channel 0 with value 4500 and channel 1 with
value 5250, each parsed value scaled by 1000; if either value fails to parse,
as on input 4.5 alone, zero report calls are made for that source. -/
theorem claim_C5 :
    (∀ (fs : FileSys) (s : String) (l r : Rat),
        fs kImpedancePath = some s → scanImpedancePair s = some (l, r) →
        logSpeakerImpedance fs =
          [Event.readFile kImpedancePath,
           Event.reportSpeakerImpedance 0 (l * 1000),
           Event.reportSpeakerImpedance 1 (r * 1000)]) ∧
    logSpeakerImpedance (fun _ => some "4.5,5.25") =
      [Event.readFile kImpedancePath, Event.reportSpeakerImpedance 0 4500,
       Event.reportSpeakerImpedance 1 5250] ∧
    logSpeakerImpedance (fun _ => some "4.5") = [Event.readFile kImpedancePath] := by
  have hp : scanImpedancePair "4.5,5.25" = some (mkRat 45 10, mkRat 525 100) := by decide
  refine ⟨?_, ?_, by decide⟩
  · intro fs s l r h hpair
    simp only [logSpeakerImpedance, h, hpair]
  · simp only [logSpeakerImpedance, hp]
    norm_num [Rat.mkRat_eq_div]

/-- Claim C5 witness: the universal part of claim C5 applied to the input
4.5,5.25. -/
theorem claim_C5_witness :
    logSpeakerImpedance (fun _ => some "4.5,5.25") =
      [Event.readFile kImpedancePath,
       Event.reportSpeakerImpedance 0 (mkRat 45 10 * 1000),
       Event.reportSpeakerImpedance 1 (mkRat 525 100 * 1000)] :=
  claim_C5.1 (fun _ => some "4.5,5.25") "4.5,5.25" (mkRat 45 10) (mkRat 525 100) rfl (by decide)

/-- Claim C6: a change confined to the file of one source (here expressed as
two snapshots agreeing everywhere except possibly at the path of source i,
covering a missing file, a parse failure, or any other content difference)
leaves the events of every other source of the same cycle unchanged. -/
theorem claim_C6 (fs fs' : FileSys) (i j : Fin sourceTable.length)
    (hagree : ∀ q : String, q ≠ (sourceTable.get i).1 → fs q = fs' q)
    (hne : j ≠ i) :
    (sourceTable.get j).2 fs = (sourceTable.get j).2 fs' := by
  have hpath : (sourceTable.get j).1 ≠ (sourceTable.get i).1 := by
    fin_cases i <;> fin_cases j <;> first
      | exact absurd rfl hne
      | decide
  exact sourceTable_local j fs fs' (hagree _ hpath)

/-- Claim C6 witness: claim C6 applied with source 0 differing (unreadable in
one snapshot, readable in the other) and source 1 observed. -/
theorem claim_C6_witness :
    (sourceTable.get ⟨1, by decide⟩).2 fsA = (sourceTable.get ⟨1, by decide⟩).2 fsB :=
  claim_C6 fsA fsB ⟨0, by decide⟩ ⟨1, by decide⟩
    (fun q hq => (if_neg hq).symm)
    (by decide)

/-- Claim C7: in a cycle in which the sink is acquired, the trace is exactly
the concatenation, in table order, of the per-source event lists — charge
cycles, codec failures, the four slow-I/O counters in the sequence read,
write, unmap, sync, speaker impedance — so each source completes fully before
the next begins, and the final event of the cycle is the release of the sink
handle, whatever the sources did. -/
theorem claim_C7 (fs : FileSys) :
    logAll true fs = (sourceTable.map (fun src => src.2 fs)).flatten ++ [Event.releaseSink] ∧
    (logAll true fs).getLast? = some Event.releaseSink := by
  have hjoin : logAll true fs =
      (sourceTable.map (fun src => src.2 fs)).flatten ++ [Event.releaseSink] := by
    simp [logAll, logSlowIo, sourceTable, List.append_assoc]
  refine ⟨hjoin, ?_⟩
  rw [hjoin, List.getLast?_append_cons]
  rfl

/-- Claim C8: when timerfd creation fails the loop runs zero cycles; when
arming the timer fails the loop terminates after the single boot cycle, with
no fallback cadence and no further cycles for any sequence of read outcomes;
and eintr-interrupted reads are retried transparently — removing them from the
read sequence changes nothing. -/
theorem claim_C8 :
    (∀ (s : Bool) (reads : List ReadOutcome), collectCycles false s reads = 0) ∧
    (∀ reads : List ReadOutcome, collectCycles true false reads = 1) ∧
    (∀ (c s : Bool) (reads : List ReadOutcome),
      collectCycles c s (reads.filter fun r =>
        match r with
        | ReadOutcome.eintr => false
        | _ => true) = collectCycles c s reads) := by
  refine ⟨fun s reads => rfl, fun reads => rfl, ?_⟩
  intro c s reads
  simp [collectCycles, ticksBeforeErr_filter_eintr]

/-- Claim C9: the codec health check compares the raw contents with the string
0 with no trimming: contents with a trailing newline or a leading space are
treated as a failure and produce one hardware-failure report, while the exact
string 0 produces none. -/
theorem claim_C9 :
    logCodecFailed (fun _ => some "0\n") =
      [Event.readFile kCodecPath,
       Event.reportHardwareFailed HardwareType.CODEC 0 HardwareErrorCode.COMPLETE] ∧
    logCodecFailed (fun _ => some " 0") =
      [Event.readFile kCodecPath,
       Event.reportHardwareFailed HardwareType.CODEC 0 HardwareErrorCode.COMPLETE] ∧
    logCodecFailed (fun _ => some "0") = [Event.readFile kCodecPath] := by
  decide

/-- Claim C10: a successfully parsed slow-I/O counter value that is zero or
negative produces zero report calls, yet the reset write of 0 to the source
file is still performed; only strictly positive parsed values are reported. -/
theorem claim_C10 (path : String) (op : IoOperation) (fs : FileSys) (s : String) (n : Int)
    (hread : fs path = some s) (hparse : scanDecInt s.data = some n) (hle : n ≤ 0) :
    reportSlowIoFromFile path op fs = [Event.readFile path, Event.writeFile path "0"] := by
  simp only [reportSlowIoFromFile, hread, hparse]
  rw [if_neg (by omega)]
  rfl

/-- Claim C10 witness: claim C10 applied to a counter file containing the
negative value -3. -/
theorem claim_C10_witness :
    reportSlowIoFromFile "p" IoOperation.READ (fun _ => some "-3") =
      [Event.readFile "p", Event.writeFile "p" "0"] :=
  claim_C10 "p" IoOperation.READ (fun _ => some "-3") "-3" (-3) rfl (by decide) (by decide)
